import Mathlib

/-!
Verification development for the molter message-command argument binder
(`molter/command.py`).  The Python data model and the binding algorithm of
`MolterCommand.call_callback`, together with its helpers `_convert`,
`_greedy_convert`, `_arg_fix`, `_get_converter` and `_get_params`, are
shallowly embedded as executable Lean definitions, and the behavioural
properties of the binder are proved over that embedding.

Conventions of the embedding:
* Python values flowing through converters are modelled by the first-order
  type `Val`; the context object is the distinguished value `Val.vCtx`.
* A converter (`(ctx, token) -> value` in Python, possibly raising) is a
  function `Conv := Val → String → Except CErr Val`; `CErr.bad` models a
  raised `errors.BadArgument`, `CErr.exc` any other exception (carrying
  `str(e)`).
* The sentinel `dis_snek.const.MISSING` standing for "no default" is
  modelled by `Option Val` with `none` for MISSING; MISSING is falsy, so
  Python truthiness of a default is `defaultTruthy`.
* Runtime errors escaping the binder are `PErr`: `PErr.badArgument` models
  `errors.BadArgument` (the user-facing bind error) and `PErr.indexError`
  models a raw Python `IndexError` (e.g. `""[0]`).
* `ArgsIterator.index` is an `Int`, because `ArgsIterator.back` can drive
  the Python index below zero, where Python tuple indexing wraps from the
  end; `pyGet` / `pySliceFrom` reproduce Python indexing and slicing.
-/

namespace Molter

/-- Model of the Python values the binder manipulates. -/
inductive Val where
  | vStr (s : String)
  | vInt (n : Int)
  | vBool (b : Bool)
  | vList (l : List Val)
  | vNone
  | vCtx

/-- Structural equality on `Val`, modelling Python `==` on the values the
binder compares (used by the `LiteralConverter` model). -/
def Val.beq : Val → Val → Bool
  | .vStr a, .vStr b => a == b
  | .vInt a, .vInt b => a == b
  | .vBool a, .vBool b => a == b
  | .vList a, .vList b => beqList a b
  | .vNone, .vNone => true
  | .vCtx, .vCtx => true
  | _, _ => false
where
  beqList : List Val → List Val → Bool
    | [], [] => true
    | x :: xs, y :: ys => Val.beq x y && beqList xs ys
    | _, _ => false

/-- Python truthiness of a `Val`. -/
def truthy : Val → Bool
  | .vStr s => !s.isEmpty
  | .vInt n => decide (n ≠ 0)
  | .vBool b => b
  | .vList l => !l.isEmpty
  | .vNone => false
  | .vCtx => true

/-- Python truthiness of a `default` slot: the MISSING sentinel (`none`)
is falsy, otherwise the stored value decides. -/
def defaultTruthy : Option Val → Bool
  | none => false
  | some v => truthy v

/-- Outcome of calling a raw converter: success, a raised
`errors.BadArgument` (with `str(e)`), or any other raised exception. -/
inductive CErr where
  | bad (msg : String)
  | exc (msg : String)
  deriving DecidableEq, Repr

/-- A converter: `(ctx, token) -> value` or a raised exception. -/
def Conv : Type := Val → String → Except CErr Val

/-- `str(e)` of a converter exception. -/
def cerrMsg : CErr → String
  | .bad m => m
  | .exc m => m

/-- Errors escaping the binder: `errors.BadArgument` or a raw Python
`IndexError`. -/
inductive PErr where
  | badArgument (msg : String)
  | indexError
  deriving DecidableEq, Repr

/-- Whether an escaping error is the user-facing bind error
(`errors.BadArgument`). -/
def isBindError : PErr → Bool
  | .badArgument _ => true
  | .indexError => false

/-- Python indexing `l[i]` on a tuple: non-negative indices from the
front, negative indices wrap from the end, out of range is `none`
(an `IndexError` in Python). -/
def pyGet (l : List String) (i : Int) : Option String :=
  if 0 ≤ i then l.get? i.toNat
  else if -(l.length : Int) ≤ i then l.get? ((l.length : Int) + i).toNat
  else none

/-- Python slicing `l[i:]`: a negative start counts from the end and is
clamped at the front. -/
def pySliceFrom (l : List String) (i : Int) : List String :=
  if 0 ≤ i then l.drop i.toNat
  else l.drop ((l.length : Int) + i).toNat

/-- `ArgsIterator` of `command.py`: a cursor over the (immutable) token
tuple.  `length` is always `len(args)` here because every loop in
`call_callback` runs `__iter__` (which sets it) before other methods are
used. -/
structure ArgsIterator where
  args : List String
  index : Int
  deriving DecidableEq, Repr

/-- `ArgsIterator.back`: `self.index -= count`. -/
def ArgsIterator.back (it : ArgsIterator) (count : Int) : ArgsIterator :=
  ⟨it.args, it.index - count⟩

/-- `ArgsIterator.consume_rest`: returns `self.args[self.index - 1 :]` and
sets the index to the length. -/
def ArgsIterator.consumeRest (it : ArgsIterator) : List String × ArgsIterator :=
  (pySliceFrom it.args (it.index - 1), ⟨it.args, (it.args.length : Int)⟩)

/-- `ArgsIterator.finished`: `self.index >= self.length`. -/
def ArgsIterator.finished (it : ArgsIterator) : Bool :=
  (it.args.length : Int) ≤ it.index

/-- `CommandParameter` of `command.py`.  `default = none` models the
MISSING sentinel.  `typeRepr` renders `repr(self.type)` and `unionNames`
renders the names of `typing.get_args(self.type)`, both only used to build
error messages.  A converter slot is an `Option Conv` because
`_get_converter` can (buggily) produce Python `None`.  The source field
`variable` is called `variadic` here (`variable` is a Lean keyword). -/
structure CommandParameter where
  name : String
  default : Option Val
  typeRepr : String
  unionNames : List String
  converters : List (Option Conv)
  greedy : Bool
  union : Bool
  variadic : Bool
  consume_rest : Bool

/-- `CommandParameter.optional`: `self.default != dis_snek.const.MISSING`. -/
def CommandParameter.optional (p : CommandParameter) : Bool :=
  p.default.isSome

/-- Calling a converter slot: Python `None` in the slot raises a
`TypeError` (it is not callable), otherwise the converter runs. -/
def applyConv : Option Conv → Val → String → Except CErr Val
  | none, _, _ => .error (.exc "TypeError: NoneType object is not callable")
  | some c, ctx, arg => c ctx arg

/-- Whether a converter call succeeded. -/
def isOkB : Except CErr Val → Bool
  | .ok _ => true
  | .error _ => false

/-- The union-exhaustion message of `_convert`:
`", ".join(union_names[:-1]) + f", or {union_names[-1]}"`; on an empty
name tuple the Python `[-1]` raises `IndexError`. -/
def couldNotConvert (param : CommandParameter) (arg : String) : PErr :=
  match param.unionNames with
  | [] => .indexError
  | ns =>
    .badArgument ("Could not convert \"" ++ arg ++ "\" into "
      ++ String.intercalate ", " ns.dropLast ++ ", or " ++ ns.getLast! ++ ".")

/-- The converter loop of `_convert`: try each converter in order, first
success wins; a failure is re-raised (wrapped into `BadArgument`) for a
non-union non-optional parameter and swallowed otherwise. -/
def tryConverters (param : CommandParameter) (ctx : Val) :
    List (Option Conv) → String → Except PErr (Option Val)
  | [], _ => .ok none
  | c :: rest, arg =>
    match applyConv c ctx arg with
    | .ok v => .ok (some v)
    | .error e =>
      if !param.union && !param.optional then .error (.badArgument (cerrMsg e))
      else tryConverters param ctx rest arg

/-- `_convert` of `command.py`: run the converter chain; if nothing
converted, fall back to the default when optional (flagging
`used_default`), otherwise raise the union-exhaustion `BadArgument`. -/
def _convert (param : CommandParameter) (ctx : Val) (arg : String) :
    Except PErr (Val × Bool) :=
  match tryConverters param ctx param.converters arg with
  | .error e => .error e
  | .ok (some v) => .ok (v, false)
  | .ok none =>
    if param.optional then .ok (param.default.getD Val.vNone, true)
    else .error (couldNotConvert param arg)

/-- The accumulation loop of `_greedy_convert` (`for arg in args:`), with
the iterator protocol of `ArgsIterator.__next__` inlined: stop (without
`broke_off`) when the index reaches the length; otherwise read the token
(wrapping Python indexing), advance, and try `_convert`.  A conversion
that used the default raises `BadArgument()` in the source; that and any
`BadArgument` from `_convert` set `broke_off` and break; other exceptions
(a raw `IndexError`) propagate. -/
def greedyLoop (param : CommandParameter) (ctx : Val) (it : ArgsIterator)
    (acc : List Val) : Except PErr (List Val × Bool × ArgsIterator) :=
  if _h : it.index < (it.args.length : Int) then
      match pyGet it.args it.index with
      | none => .error .indexError
      | some arg =>
        match _convert param ctx arg with
        | .ok (v, false) => greedyLoop param ctx ⟨it.args, it.index + 1⟩ (acc ++ [v])
        | .ok (_, true) => .ok (acc, true, ⟨it.args, it.index + 1⟩)
        | .error (.badArgument _) => .ok (acc, true, ⟨it.args, it.index + 1⟩)
        | .error .indexError => .error .indexError
    else .ok (acc, false, it)
  termination_by ((it.args.length : Int) - it.index).toNat
  decreasing_by simp_wf; omega

/-- `_greedy_convert` of `command.py`: rewind one token, accumulate
through `greedyLoop`; on zero accumulated tokens fall back to the default
only when it is *truthy* (`if param.default:`), else raise
`"Failed to find any arguments for <repr(type)>."`. -/
def _greedy_convert (param : CommandParameter) (ctx : Val) (it : ArgsIterator) :
    Except PErr (Val × Bool × ArgsIterator) :=
  match greedyLoop param ctx (it.back 1) [] with
  | .error e => .error e
  | .ok (greedyArgs, brokeOff, it1) =>
    if greedyArgs.isEmpty then
      if defaultTruthy param.default then .ok (param.default.getD Val.vNone, brokeOff, it1)
      else .error (.badArgument ("Failed to find any arguments for " ++ param.typeRepr ++ "."))
    else .ok (Val.vList greedyArgs, brokeOff, it1)

/-- The per-token conversion of a variadic parameter
(`[await _convert(param, ctx, arg) for arg in args_to_convert]` followed
by taking the converted values). -/
def convertAll (param : CommandParameter) (ctx : Val) :
    List String → Except PErr (List Val)
  | [] => .ok []
  | a :: rest =>
    match _convert param ctx a with
    | .error e => .error e
    | .ok r =>
      match convertAll param ctx rest with
      | .error e => .error e
      | .ok rs => .ok (r.1 :: rs)

/-- The `if param.consume_rest: arg = " ".join(args.consume_rest())` fix
at the top of the inner loop body of `call_callback`: it both re-binds the
current token and exhausts the iterator. -/
def consumeRestFix (param : CommandParameter) (arg : String) (it : ArgsIterator) :
    String × ArgsIterator :=
  if param.consume_rest then (String.intercalate " " it.consumeRest.1, it.consumeRest.2)
  else (arg, it)

/-- The inner `while param_index < len(self.params)` loop of
`call_callback`, for one token `arg` handed over by the outer loop.  The
suffix `self.params[param_index:]` of still-unbound parameters stands for
`param_index` (so `param_index < len(self.params)` is `remaining ≠ []`).
`.ok` results are the state at which the inner loop exited (by `break` or
by its condition turning false), handing control back to the outer loop:
the remaining parameter suffix, the iterator, `new_args` and `kwargs`.
Branches follow the source order: the `consume_rest` re-binding of `arg`
(`consumeRestFix`), then the `variable` branch (break), the `greedy`
branch (`continue` when the default is truthy, else break), and the
plain/union `_convert` branch (`break` only when the default was not
used; a `consume_rest` parameter stores into `kwargs`). -/
def innerLoop (ctx : Val) (arg : String) :
    List CommandParameter → ArgsIterator → List Val → List (String × Val) →
    Except PErr (List CommandParameter × ArgsIterator × List Val × List (String × Val))
  | [], it, newArgs, kwargs => .ok ([], it, newArgs, kwargs)
  | param :: rest, it, newArgs, kwargs =>
    if param.variadic then
      match convertAll param ctx (consumeRestFix param arg it).2.consumeRest.1 with
      | .error e => .error e
      | .ok vals =>
        .ok (rest, (consumeRestFix param arg it).2.consumeRest.2,
          newArgs ++ [Val.vList vals], kwargs)
    else if param.greedy then
      match _greedy_convert param ctx (consumeRestFix param arg it).2 with
      | .error e => .error e
      | .ok (v, brokeOff, it1) =>
        if defaultTruthy param.default then
          innerLoop ctx (consumeRestFix param arg it).1 rest
            (if brokeOff then it1.back 1 else it1) (newArgs ++ [v]) kwargs
        else .ok (rest, (if brokeOff then it1.back 1 else it1), newArgs ++ [v], kwargs)
    else
      match _convert param ctx (consumeRestFix param arg it).1 with
      | .error e => .error e
      | .ok (v, usedDefault) =>
        if usedDefault then
          innerLoop ctx (consumeRestFix param arg it).1 rest (consumeRestFix param arg it).2
            (if !param.consume_rest then newArgs ++ [v] else newArgs)
            (if !param.consume_rest then kwargs else kwargs ++ [(param.name, v)])
        else
          .ok (rest, (consumeRestFix param arg it).2,
            (if !param.consume_rest then newArgs ++ [v] else newArgs),
            (if !param.consume_rest then kwargs else kwargs ++ [(param.name, v)]))

/-- The greedy accumulation loop never replaces the underlying token
tuple: only the cursor position changes. -/
theorem greedyLoop_args (param : CommandParameter) (ctx : Val) :
    ∀ (it : ArgsIterator) (acc : List Val) res,
      greedyLoop param ctx it acc = .ok res → res.2.2.args = it.args := by
  have H : ∀ (n : Nat) (it : ArgsIterator) (acc : List Val) res,
      ((it.args.length : Int) - it.index).toNat ≤ n →
      greedyLoop param ctx it acc = .ok res → res.2.2.args = it.args := by
    intro n
    induction n with
    | zero =>
      intro it acc res hle h
      unfold greedyLoop at h
      split at h
      · next hlt => exfalso; omega
      · cases h; rfl
    | succ n ih =>
      intro it acc res hle h
      unfold greedyLoop at h
      split at h
      · next hlt =>
        split at h
        · cases h
        · next arg hget =>
          split at h
          · next v hc => exact ih ⟨it.args, it.index + 1⟩ (acc ++ [v]) res (by simp; omega) h
          · next v hc => cases h; rfl
          · next m hc => cases h; rfl
          · cases h
      · cases h; rfl
  intro it acc res h
  exact H ((it.args.length : Int) - it.index).toNat it acc res (le_refl _) h

/-- `_greedy_convert` never replaces the underlying token tuple. -/
theorem greedy_convert_args (param : CommandParameter) (ctx : Val)
    (it : ArgsIterator) (res : Val × Bool × ArgsIterator)
    (h : _greedy_convert param ctx it = .ok res) : res.2.2.args = it.args := by
  unfold _greedy_convert at h
  split at h
  · cases h
  · next ga bo it1 hg =>
    have hargs := greedyLoop_args param ctx (it.back 1) [] (ga, bo, it1) hg
    simp only [ArgsIterator.back] at hargs
    split at h
    · split at h
      · cases h; exact hargs
      · cases h
    · cases h; exact hargs

/-- The `consume_rest` fix never replaces the underlying token tuple. -/
theorem consumeRestFix_args (param : CommandParameter) (arg : String) (it : ArgsIterator) :
    (consumeRestFix param arg it).2.args = it.args := by
  unfold consumeRestFix
  split <;> simp [ArgsIterator.consumeRest]

/-- Structural facts about one run of the inner loop, needed for the
termination of the outer loop: the token tuple is unchanged, the
parameter suffix shrinks whenever it was nonempty, and on an empty suffix
the state passes through unchanged. -/
theorem innerLoop_spec (ctx : Val) :
    ∀ (rem : List CommandParameter) (arg : String) (it : ArgsIterator) (na : List Val)
      (kw : List (String × Val)) rem' it' na' kw',
      innerLoop ctx arg rem it na kw = .ok (rem', it', na', kw') →
      it'.args = it.args ∧ rem'.length ≤ rem.length ∧
      (rem = [] → rem' = [] ∧ it' = it ∧ na' = na ∧ kw' = kw) ∧
      (rem ≠ [] → rem'.length < rem.length) := by
  intro rem
  induction rem with
  | nil =>
    intro arg it na kw rem' it' na' kw' h
    unfold innerLoop at h
    cases h
    exact ⟨rfl, le_refl _, fun _ => ⟨rfl, rfl, rfl, rfl⟩, fun hne => absurd rfl hne⟩
  | cons param rest ih =>
    intro arg it na kw rem' it' na' kw' h
    unfold innerLoop at h
    split at h
    · -- variadic branch
      split at h
      · cases h
      · next vals hca =>
        cases h
        refine ⟨?_, ?_, ?_, ?_⟩
        · simp [ArgsIterator.consumeRest, consumeRestFix_args]
        · simp
        · intro hcon; exact List.noConfusion hcon
        · intro _; simp
    · split at h
      · -- greedy branch
        split at h
        · cases h
        · next v brokeOff it1 hgc =>
          have hit1 : it1.args = it.args := by
            have h1 := greedy_convert_args param ctx (consumeRestFix param arg it).2
              (v, brokeOff, it1) hgc
            rw [consumeRestFix_args] at h1
            exact h1
          have hit2 : (if brokeOff then it1.back 1 else it1).args = it.args := by
            cases brokeOff <;> simp [ArgsIterator.back, hit1]
          split at h
          · obtain ⟨h1, h2, _, _⟩ := ih _ _ _ _ _ _ _ _ h
            refine ⟨by rw [h1, hit2], ?_, ?_, ?_⟩
            · simp only [List.length_cons]; omega
            · intro hcon; exact List.noConfusion hcon
            · intro _; simp only [List.length_cons]; omega
          · cases h
            refine ⟨hit2, ?_, ?_, ?_⟩
            · simp
            · intro hcon; exact List.noConfusion hcon
            · intro _; simp
      · -- plain / union branch
        split at h
        · cases h
        · next v usedDefault hc =>
          split at h
          · obtain ⟨h1, h2, _, _⟩ := ih _ _ _ _ _ _ _ _ h
            refine ⟨by rw [h1, consumeRestFix_args], ?_, ?_, ?_⟩
            · simp only [List.length_cons]; omega
            · intro hcon; exact List.noConfusion hcon
            · intro _; simp only [List.length_cons]; omega
          · cases h
            refine ⟨consumeRestFix_args _ _ _, ?_, ?_, ?_⟩
            · simp
            · intro hcon; exact List.noConfusion hcon
            · intro _; simp

/-- The outer `for arg in args:` loop of `call_callback`, with the
iterator protocol of `ArgsIterator.__next__` inlined: while tokens remain,
fetch the next one (wrapping Python indexing) and run the inner loop; the
loop ends only by `StopIteration` (the index reaching the length). -/
def outerLoop (ctx : Val) (rem : List CommandParameter) (it : ArgsIterator)
    (newArgs : List Val) (kwargs : List (String × Val)) :
    Except PErr (List CommandParameter × ArgsIterator × List Val × List (String × Val)) :=
  if _h : it.index < (it.args.length : Int) then
    match pyGet it.args it.index with
    | none => .error .indexError
    | some arg =>
      match h2 : innerLoop ctx arg rem ⟨it.args, it.index + 1⟩ newArgs kwargs with
      | .error e => .error e
      | .ok (rem', it', newArgs', kwargs') => outerLoop ctx rem' it' newArgs' kwargs'
  else .ok (rem, it, newArgs, kwargs)
  termination_by (rem.length, ((it.args.length : Int) - it.index).toNat)
  decreasing_by
    obtain ⟨e1, e2, e3, e4⟩ := innerLoop_spec ctx rem arg ⟨it.args, it.index + 1⟩
      newArgs kwargs rem' it' newArgs' kwargs' h2
    rcases List.eq_nil_or_concat rem with hnil | hne
    · obtain ⟨hr, hi, -, -⟩ := e3 hnil
      subst hnil
      subst hr
      subst hi
      apply Prod.Lex.right
      show ((it.args.length : Int) - (it.index + 1)).toNat <
        ((it.args.length : Int) - it.index).toNat
      omega
    · have hlt : rem'.length < rem.length := by
        apply e4
        obtain ⟨l, a, rfl⟩ := hne
        simp
      exact Prod.Lex.left _ _ hlt

/-- The post-loop fallback of `call_callback` over the still-unbound
parameter suffix `self.params[param_index:]`: a non-optional parameter
raises `"Missing argument for <name>."`; an optional one contributes its
default to `new_args`, except that a `consume_rest` parameter stores it
into `kwargs` and stops the fallback loop (`break`). -/
def fallbackRemaining :
    List CommandParameter → List Val → List (String × Val) →
    Except PErr (List Val × List (String × Val))
  | [], newArgs, kwargs => .ok (newArgs, kwargs)
  | param :: rest, newArgs, kwargs =>
    if !param.optional then
      .error (.badArgument ("Missing argument for " ++ param.name ++ "."))
    else if !param.consume_rest then
      fallbackRemaining rest (newArgs ++ [param.default.getD Val.vNone]) kwargs
    else .ok (newArgs, kwargs ++ [(param.name, param.default.getD Val.vNone)])

/-- The external quote table `_quotes` of the tokenizer collaborator
(`dis_snek.client.utils.input_utils`), modelled at its interface boundary
per the spec: a fixed set of quote pairs, the standard double quote plus
typographic variants.  `_arg_fix` only ever consults the keys. -/
def _quotes : List (Char × Char) :=
  [('"', '"'), ('“', '”'), ('„', '‟'), ('‘', '’'), ('«', '»'), ('‹', '›'),
   ('「', '」'), ('『', '』')]

/-- `_arg_fix` of `command.py`: `if arg[0] in _quotes.keys(): return
arg[1:-1]` — on the empty token, Python `""[0]` raises `IndexError`; a
token starting with a recognized opening quote loses its first and last
characters unconditionally; any other token passes through unchanged. -/
def _arg_fix (arg : String) : Except PErr String :=
  match arg.data with
  | [] => .error .indexError
  | c :: cs =>
    if (_quotes.map Prod.fst).contains c then .ok (String.mk cs.dropLast)
    else .ok arg

/-- The eager `tuple(_arg_fix(a) for a in ctx.args)` when the
`ArgsIterator` is constructed: fix every token up front, propagating the
first exception. -/
def argFixAll : List String → Except PErr (List String)
  | [] => .ok []
  | a :: rest =>
    match _arg_fix a with
    | .error e => .error e
    | .ok f =>
      match argFixAll rest with
      | .error e => .error e
      | .ok fs => .ok (f :: fs)

/-- The parts of `MolterCommand` that `call_callback` consults. -/
structure MolterCommand where
  name : String
  params : List CommandParameter
  ignore_extra : Bool

/-- `MolterCommand.call_callback`: the full binder.  The result is the
argument list and keyword map handed to the handler (`callback(ctx,
*new_args, **kwargs)`); an empty parameter list returns immediately.
After the outer loop, a nonempty parameter suffix runs the fallback;
otherwise the `ignore_extra` guard fires only when tokens remain
unconsumed — which, as proved below, never happens. -/
def call_callback (cmd : MolterCommand) (ctx : Val) (ctxArgs : List String) :
    Except PErr (List Val × List (String × Val)) :=
  if cmd.params.length = 0 then .ok ([], [])
  else
    match argFixAll ctxArgs with
    | .error e => .error e
    | .ok fixed =>
      match outerLoop ctx cmd.params ⟨fixed, 0⟩ [] [] with
      | .error e => .error e
      | .ok (rem, it, newArgs, kwargs) =>
        match rem with
        | _ :: _ => fallbackRemaining rem newArgs kwargs
        | [] =>
          if !cmd.ignore_extra && !it.finished then
            .error (.badArgument ("Too many arguments passed to " ++ cmd.name ++ "."))
          else .ok (newArgs, kwargs)

/-- `_convert_to_bool` of `command.py`: the fixed word lists, else
`BadArgument "<argument> is not a recognised boolean option."`. -/
def _convert_to_bool (argument : String) : Except CErr Val :=
  let lowered := argument.toLower
  if ["yes", "y", "true", "t", "1", "enable", "on"].contains lowered then
    .ok (.vBool true)
  else if ["no", "n", "false", "f", "0", "disable", "off"].contains lowered then
    .ok (.vBool false)
  else .error (.bad (argument ++ " is not a recognised boolean option."))

/-- `str()` rendering of a `Val`, for the `LiteralConverter` error
message. -/
def pyStr : Val → String
  | .vStr s => s
  | .vInt n => toString n
  | .vBool true => "True"
  | .vBool false => "False"
  | .vList _ => "[...]"
  | .vNone => "None"
  | .vCtx => "ctx"

/-- `type(arg)(argument)` for a literal `arg`: coerce the token under the
literal value's own type (int parsing for int literals, identity for str
literals, Python truthiness of a nonempty string for bool literals);
other literal types fail. -/
def coerceAs : Val → String → Except CErr Val
  | .vInt _, s =>
    match s.toInt? with
    | some n => .ok (.vInt n)
    | none => .error (.exc ("invalid literal for int() with base 10: " ++ s))
  | .vStr _, s => .ok (.vStr s)
  | .vBool _, s => .ok (.vBool (!s.isEmpty))
  | _, s => .error (.exc ("unsupported literal type for " ++ s))

/-- `LiteralConverter.convert`: try each literal in declaration order; on
`arg == type(arg)(argument)` return the *token* itself; exceptions during
coercion are swallowed; exhaustion raises the joined `BadArgument`. -/
def literalConvert (lits : List Val) : Conv := fun _ argument =>
  if lits.any (fun l =>
      match coerceAs l argument with
      | .ok v => Val.beq l v
      | .error _ => false) then
    .ok (.vStr argument)
  else
    .error (.bad ("Could not convert \"" ++ argument ++ "\" into one of "
      ++ String.intercalate ", " ((lits.map pyStr).dropLast)
      ++ ", or " ++ (lits.map pyStr).getLast! ++ "."))

/-- The runtime type tests `_get_converter` performs on an annotation,
embedded as one constructor per (disjoint) branch of its `elif` chain:
a type registered in `SNEK_OBJECT_TO_CONVERTER`, a subclass of
`converters.Converter`, a type exposing a `convert` function, a
`typing.Literal[...]`, a plain function of a given arity (modelled as a
function from its Python argument list), `bool`, the missing annotation
`inspect._empty`, `str`, `NoneType`, and any other type used as a
one-argument constructor. -/
inductive Anno where
  | snekObject (conv : Conv)
  | converterClass (conv : Conv)
  | hasConvert (conv : Conv)
  | literalA (lits : List Val)
  | funcA (arity : Nat) (f : List Val → Except CErr Val)
  | boolA
  | emptyA
  | strA
  | noneTypeA
  | otherA (ctor : Conv)

/-- `_get_converter` of `command.py`.  Note the source defect mirrored in
the `funcA` catch-all arm: for a plain function of more than 2 parameters
the source merely *constructs* `ValueError(...)` without raising it, so
the branch falls through and the function returns Python `None` — hence
the `Option Conv` result with `none` there and `some` everywhere else. -/
def _get_converter (anno : Anno) (name : String) : Option Conv :=
  match anno with
  | .snekObject c => some c
  | .converterClass c => some c
  | .hasConvert c => some c
  | .literalA lits => some (literalConvert lits)
  | .funcA arity f =>
    match arity with
    | 2 => some (fun ctx arg => f [ctx, Val.vStr arg])
    | 1 => some (fun _ arg => f [Val.vStr arg])
    | 0 => some (fun _ _ => f [])
    | _ => none
  | .boolA => some (fun _ arg => _convert_to_bool arg)
  | .emptyA => some (fun _ arg => .ok (Val.vStr arg))
  | .strA => some (fun _ arg => .ok (Val.vStr arg))
  | .noneTypeA => some (fun _ arg => .error (.exc ("NoneType takes no arguments: " ++ arg)))
  | .otherA c => some c

/-- `inspect.Parameter.kind`, restricted to the kinds `_get_params`
distinguishes. -/
inductive PKind where
  | positionalOrKeyword
  | keywordOnly
  | varPositional
  deriving DecidableEq

/-- The shape of a parameter annotation as `_get_params` probes it with
`typing.get_origin` / `typing.get_args`: a plain type, a union (a `none`
alternative is `NoneType`), or a `Greedy[...]` wrapper. -/
inductive AnnoT where
  | plainT (a : Anno)
  | unionT (alts : List (Option Anno))
  | greedyT (inner : AnnoT)

/-- One parameter of the handler signature as `inspect.signature` reports
it (after the source has already dropped `self`/`ctx`): name, kind,
declared default (`none` = `inspect.Parameter.empty`), annotation. -/
structure PyParam where
  name : String
  kind : PKind
  dflt : Option Val
  anno : AnnoT

/-- `_get_name` / `repr` rendering of an annotation (abstracted: only
used inside error messages). -/
def annoRepr : Anno → String
  | .boolA => "bool"
  | .strA => "str"
  | .noneTypeA => "NoneType"
  | .emptyA => "empty"
  | _ => "object"

/-- `repr` rendering of a full annotation tree (abstracted: only used
inside error messages). -/
def annoTRepr : AnnoT → String
  | .plainT a => annoRepr a
  | .unionT _ => "union"
  | .greedyT i => "Greedy[" ++ annoTRepr i ++ "]"

/-- The names of `typing.get_args(param.type)` on the *original*
annotation, as `_convert` uses them for the union-exhaustion message. -/
def getArgsNames : AnnoT → List String
  | .unionT alts =>
    alts.map (fun a =>
      match a with
      | some x => annoRepr x
      | none => "NoneType")
  | .greedyT i => [annoTRepr i]
  | .plainT _ => []

/-- `_greedy_parse` of `command.py`: reject keyword-only and variadic
parameters, the inner types `NoneType` and `str`, and a union inner type
containing `NoneType`; otherwise return the stripped inner annotation. -/
def _greedy_parse (inner : AnnoT) (kind : PKind) : Except String AnnoT :=
  if kind = PKind.keywordOnly ∨ kind = PKind.varPositional then
    .error "Greedy[...] cannot be a variable or keyword-only argument."
  else
    match inner with
    | .plainT .noneTypeA => .error ("Greedy[" ++ annoTRepr inner ++ "] is invalid.")
    | .plainT .strA => .error ("Greedy[" ++ annoTRepr inner ++ "] is invalid.")
    | .unionT alts =>
      if alts.any Option.isNone then .error ("Greedy[" ++ annoTRepr inner ++ "] is invalid.")
      else .ok (.unionT alts)
    | a => .ok a

/-- Converter resolution for a stripped non-union annotation.  A nested
`greedyT` / `unionT` at this point is a raw generic-alias object in
Python, whose constructor call fails at bind time; unreachable for
signatures the builder accepts. -/
def annoTConverter : AnnoT → String → Option Conv
  | .plainT a, name => _get_converter a name
  | _, _ => some (fun _ arg => .error (.exc ("generic alias is not callable: " ++ arg)))

/-- The `Greedy[...]`-stripping step at the top of the `_get_params` loop
body: when `typing.get_origin(anno)` is `Greedy`, run `_greedy_parse` and
record the greedy flag. -/
def stripGreedy (p : PyParam) : Except String (AnnoT × Bool) :=
  match p.anno with
  | .greedyT inner =>
    match _greedy_parse inner p.kind with
    | .error e => .error e
    | .ok a => .ok (a, true)
  | a => .ok (a, false)

/-- The per-parameter body of the `_get_params` loop, up to (but not
including) the `param.kind` match: set the default (MISSING when absent),
strip and validate a `Greedy[...]` wrapper, then build the converter
chain — one converter per non-`NoneType` union alternative (a `NoneType`
alternative makes a so-far non-optional parameter default to `None`), or
the single converter of the plain annotation. -/
def buildParam (p : PyParam) : Except String CommandParameter :=
  match stripGreedy p with
  | .error e => .error e
  | .ok stripped =>
  match stripped.1 with
  | .unionT alts =>
    let r := alts.foldl
      (fun (acc : List (Option Conv) × Option Val) alt =>
        match alt with
        | some a => (acc.1 ++ [_get_converter a p.name], acc.2)
        | none => if acc.2.isSome then acc else (acc.1, some Val.vNone))
      ([], p.dflt)
    .ok { name := p.name, default := r.2, typeRepr := annoTRepr p.anno,
          unionNames := getArgsNames p.anno, converters := r.1,
          greedy := stripped.2, union := true, variadic := false, consume_rest := false }
  | a =>
    .ok { name := p.name, default := p.dflt, typeRepr := annoTRepr p.anno,
          unionNames := getArgsNames p.anno,
          converters := [annoTConverter a p.name],
          greedy := stripped.2, union := false, variadic := false, consume_rest := false }

/-- `_get_params` of `command.py` over the user-visible parameters: build
each descriptor in order; a keyword-only parameter becomes `consume_rest`
and ends the walk (`break`); a variadic parameter must not be optional
(`"Variable arguments cannot have default values or be Optional."`),
becomes `variable` and ends the walk. -/
def _get_params : List PyParam → Except String (List CommandParameter)
  | [] => .ok []
  | p :: rest =>
    match buildParam p with
    | .error e => .error e
    | .ok cp =>
      match p.kind with
      | .keywordOnly => .ok [{ cp with consume_rest := true }]
      | .varPositional =>
        if cp.optional then .error "Variable arguments cannot have default values or be Optional."
        else .ok [{ cp with variadic := true }]
      | .positionalOrKeyword =>
        match _get_params rest with
        | .error e => .error e
        | .ok others => .ok (cp :: others)

/-- Python `int(s)` restricted to optionally-signed decimal digit
strings (the only shapes the developments below exercise). -/
def pyInt (s : String) : Option Int :=
  let core : List Char → Option Nat := fun l =>
    l.foldl
      (fun acc c =>
        match acc with
        | none => none
        | some n => if c.isDigit then some (n * 10 + (c.toNat - 48)) else none)
      (some 0)
  match s.data with
  | [] => none
  | '-' :: rest => if rest.isEmpty then none else (core rest).map (fun n => -(n : Int))
  | ds => (core ds).map (fun n => (n : Int))

/-- The converter `_get_converter` produces for the annotation `int`
(the `anno(arg)` fallback branch: `int(arg)` or a raised `ValueError`). -/
def intConv : Conv := fun _ arg =>
  match pyInt arg with
  | some n => .ok (.vInt n)
  | none => .error (.exc ("invalid literal for int() with base 10: " ++ arg))

/-- The converter for an unannotated or `str` parameter:
`lambda ctx, arg: str(arg)`. -/
def strConv : Conv := fun _ arg => .ok (.vStr arg)

/-- One accumulation step of the greedy loop: a token in range that
truly converts is appended and the loop continues. -/
theorem greedyLoop_step (param : CommandParameter) (ctx : Val) (it : ArgsIterator)
    (acc : List Val) (arg : String) (v : Val)
    (hlt : it.index < (it.args.length : Int))
    (hget : pyGet it.args it.index = some arg)
    (hc : _convert param ctx arg = .ok (v, false)) :
    greedyLoop param ctx it acc = greedyLoop param ctx ⟨it.args, it.index + 1⟩ (acc ++ [v]) := by
  rw [greedyLoop.eq_def]
  rw [dif_pos hlt]
  simp only [hget, hc]

/-- The greedy loop breaks off at a token whose conversion fell back to
the default (`raise errors.BadArgument()` in the source). -/
theorem greedyLoop_stop_default (param : CommandParameter) (ctx : Val) (it : ArgsIterator)
    (acc : List Val) (arg : String) (v : Val)
    (hlt : it.index < (it.args.length : Int))
    (hget : pyGet it.args it.index = some arg)
    (hc : _convert param ctx arg = .ok (v, true)) :
    greedyLoop param ctx it acc = .ok (acc, true, ⟨it.args, it.index + 1⟩) := by
  rw [greedyLoop.eq_def]
  rw [dif_pos hlt]
  simp only [hget, hc]

/-- The greedy loop breaks off at a token whose conversion raised
`BadArgument`. -/
theorem greedyLoop_stop_bad (param : CommandParameter) (ctx : Val) (it : ArgsIterator)
    (acc : List Val) (arg : String) (m : String)
    (hlt : it.index < (it.args.length : Int))
    (hget : pyGet it.args it.index = some arg)
    (hc : _convert param ctx arg = .error (.badArgument m)) :
    greedyLoop param ctx it acc = .ok (acc, true, ⟨it.args, it.index + 1⟩) := by
  rw [greedyLoop.eq_def]
  rw [dif_pos hlt]
  simp only [hget, hc]

/-- The greedy loop stops without `broke_off` when tokens are
exhausted. -/
theorem greedyLoop_done (param : CommandParameter) (ctx : Val) (it : ArgsIterator)
    (acc : List Val) (hge : ¬it.index < (it.args.length : Int)) :
    greedyLoop param ctx it acc = .ok (acc, false, it) := by
  rw [greedyLoop.eq_def]
  rw [dif_neg hge]

/-- One iteration of the outer loop: fetch the token at the cursor and
run the inner loop, continuing from the state it hands back. -/
theorem outerLoop_step (ctx : Val) (rem : List CommandParameter) (it : ArgsIterator)
    (na : List Val) (kw : List (String × Val)) (arg : String)
    (rem' : List CommandParameter) (it' : ArgsIterator) (na' : List Val)
    (kw' : List (String × Val))
    (hlt : it.index < (it.args.length : Int))
    (hget : pyGet it.args it.index = some arg)
    (hin : innerLoop ctx arg rem ⟨it.args, it.index + 1⟩ na kw = .ok (rem', it', na', kw')) :
    outerLoop ctx rem it na kw = outerLoop ctx rem' it' na' kw' := by
  rw [outerLoop.eq_def]
  rw [dif_pos hlt]
  simp only [hget]
  split
  · next e heq =>
    rw [hin] at heq
    cases heq
  · next rem2 it2 na2 kw2 heq =>
    rw [hin] at heq
    cases heq
    rfl

/-- An inner-loop failure propagates out of the outer loop. -/
theorem outerLoop_step_err (ctx : Val) (rem : List CommandParameter) (it : ArgsIterator)
    (na : List Val) (kw : List (String × Val)) (arg : String) (e : PErr)
    (hlt : it.index < (it.args.length : Int))
    (hget : pyGet it.args it.index = some arg)
    (hin : innerLoop ctx arg rem ⟨it.args, it.index + 1⟩ na kw = .error e) :
    outerLoop ctx rem it na kw = .error e := by
  rw [outerLoop.eq_def]
  rw [dif_pos hlt]
  simp only [hget]
  split
  · next e2 heq =>
    rw [hin] at heq
    cases heq
    rfl
  · next rem2 it2 na2 kw2 heq =>
    rw [hin] at heq
    cases heq

/-- The outer loop ends (by `StopIteration`) exactly when the cursor has
reached the length. -/
theorem outerLoop_done (ctx : Val) (rem : List CommandParameter) (it : ArgsIterator)
    (na : List Val) (kw : List (String × Val))
    (hge : ¬it.index < (it.args.length : Int)) :
    outerLoop ctx rem it na kw = .ok (rem, it, na, kw) := by
  rw [outerLoop.eq_def]
  rw [dif_neg hge]

/-- When every parameter is already bound, the outer loop just marches
through the remaining tokens and ends finished. -/
theorem outerLoop_nil_finished (ctx : Val) (it : ArgsIterator) (na : List Val)
    (kw : List (String × Val)) (res : _)
    (h : outerLoop ctx [] it na kw = .ok res) : res.2.1.finished = true := by
  have H : ∀ (m : Nat) (it : ArgsIterator) (na : List Val) (kw : List (String × Val)) res,
      ((it.args.length : Int) - it.index).toNat ≤ m →
      outerLoop ctx [] it na kw = .ok res → res.2.1.finished = true := by
    intro m
    induction m with
    | zero =>
      intro it na kw res hle h
      rw [outerLoop_done ctx [] it na kw (by omega)] at h
      cases h
      simp only [ArgsIterator.finished, decide_eq_true_eq]
      omega
    | succ m ihm =>
      intro it na kw res hle h
      unfold outerLoop at h
      split at h
      · next hlt =>
        split at h
        · cases h
        · next arg hget =>
          split at h
          · cases h
          · next rem' it' na' kw' hin =>
            obtain ⟨-, -, e3, -⟩ := innerLoop_spec ctx [] arg ⟨it.args, it.index + 1⟩
              na kw rem' it' na' kw' hin
            obtain ⟨hr, hi, -, -⟩ := e3 rfl
            subst hr hi
            exact ihm ⟨it.args, it.index + 1⟩ na' kw' res (by simp; omega) h
      · next hge =>
        cases h
        simp only [ArgsIterator.finished, decide_eq_true_eq]
        omega
  exact H ((it.args.length : Int) - it.index).toNat it na kw res (le_refl _) h

/-- When the outer loop returns normally the iterator is always
finished: the `for` loop only ends by `StopIteration`, having consumed
every token — including unbound extra ones.  This makes the
`ignore_extra` guard of `call_callback` unreachable. -/
theorem outerLoop_finished (ctx : Val) (rem : List CommandParameter) (it : ArgsIterator)
    (na : List Val) (kw : List (String × Val)) (res : _)
    (h : outerLoop ctx rem it na kw = .ok res) : res.2.1.finished = true := by
  have H : ∀ (k : Nat) (rem : List CommandParameter), rem.length ≤ k →
      ∀ (it : ArgsIterator) (na : List Val) (kw : List (String × Val)) res,
      outerLoop ctx rem it na kw = .ok res → res.2.1.finished = true := by
    intro k
    induction k with
    | zero =>
      intro rem hk it na kw res h
      have hrem : rem = [] := List.eq_nil_of_length_eq_zero (Nat.le_zero.mp hk)
      subst hrem
      exact outerLoop_nil_finished ctx it na kw res h
    | succ k ihk =>
      intro rem hk it na kw res h
      unfold outerLoop at h
      split at h
      · next hlt =>
        split at h
        · cases h
        · next arg hget =>
          split at h
          · cases h
          · next rem' it' na' kw' hin =>
            obtain ⟨-, -, e3, e4⟩ := innerLoop_spec ctx rem arg ⟨it.args, it.index + 1⟩
              na kw rem' it' na' kw' hin
            rcases List.eq_nil_or_concat rem with hnil | hne
            · obtain ⟨hr, hi, -, -⟩ := e3 hnil
              subst hnil hr hi
              exact outerLoop_nil_finished ctx ⟨it.args, it.index + 1⟩ na' kw' res h
            · have hlt2 : rem'.length < rem.length := e4 (by
                obtain ⟨l, a, rfl⟩ := hne
                simp)
              exact ihk rem' (by omega) it' na' kw' res h
      · next hge =>
        cases h
        simp only [ArgsIterator.finished, decide_eq_true_eq]
        omega
  exact H rem.length rem (le_refl _) it na kw res h

/-- A 3-parameter Python function used as an annotation (it records the
argument list it was called with). -/
def f3 : List Val → Except CErr Val := fun l => .ok (.vList l)

/-- A descriptor whose single converter slot is what `_get_converter`
produced for a 3-parameter callable annotation — Python `None`. -/
def pArity3 : CommandParameter :=
  ⟨"p", none, "f3", [], [_get_converter (.funcA 3 f3) "p"], false, false, false, false⟩

/-- C3: the claim says a plain-callable annotation needing more than 2
parameters raises a `SignatureError` at build time.  The code does not:
the `case _:` arm of `_get_converter` merely *constructs*
`ValueError(...)` without raising it, so the function returns Python
`None` as the converter, and the failure only surfaces at bind time as a
wrapped `TypeError` inside a `BadArgument`.  The arity-0/1/2 wrapping the
claim describes does hold. -/
theorem high_arity_callable_no_signature_error :
    _get_converter (.funcA 3 f3) "p" = none
    ∧ applyConv (_get_converter (.funcA 2 f3) "p") .vCtx "t" = .ok (.vList [.vCtx, .vStr "t"])
    ∧ applyConv (_get_converter (.funcA 1 f3) "p") .vCtx "t" = .ok (.vList [.vStr "t"])
    ∧ applyConv (_get_converter (.funcA 0 f3) "p") .vCtx "t" = .ok (.vList [])
    ∧ _convert pArity3 .vCtx "t" =
        .error (.badArgument "TypeError: NoneType object is not callable") :=
  ⟨rfl, rfl, rfl, rfl, rfl⟩

/-- C9 counterexample: the claim says a token whose last character is not
the matching closing quote is returned unchanged; but `_arg_fix` never
looks at the last character — on `"ab` (opening quote, no closing quote)
it strips both the first and the last character, returning `a`. -/
theorem arg_fix_strips_without_closing_check :
    _arg_fix "\"ab" = .ok "a" ∧ ("a" : String) ≠ "\"ab" :=
  ⟨rfl, by decide⟩

/-- C9 (amended): for every nonempty token, `_arg_fix` strips the first
and last characters exactly when the first character is a recognized
opening quote — with no check of the closing character — and returns the
token unchanged otherwise. -/
theorem arg_fix_strips_first_last_unconditionally (c : Char) (cs : List Char) :
    _arg_fix (String.mk (c :: cs)) =
      .ok (if (_quotes.map Prod.fst).contains c then String.mk cs.dropLast
           else String.mk (c :: cs)) := by
  show (if (_quotes.map Prod.fst).contains c then
      (Except.ok (String.mk cs.dropLast) : Except PErr String)
    else .ok (String.mk (c :: cs))) = _
  split
  · rfl
  · rfl

/-- A nonempty token is always fixed successfully. -/
theorem arg_fix_ok_of_ne_empty (a : String) (ha : a ≠ "") :
    ∃ f, _arg_fix a = .ok f := by
  rcases hd : a.data with - | ⟨c, cs⟩
  · exact absurd (String.ext hd) ha
  · refine ⟨if (_quotes.map Prod.fst).contains c then String.mk cs.dropLast else a, ?_⟩
    unfold _arg_fix
    rw [hd]
    show (if (_quotes.map Prod.fst).contains c then
        (Except.ok (String.mk cs.dropLast) : Except PErr String)
      else .ok a) = _
    split
    · rfl
    · rfl

/-- A token list containing the empty string makes the eager fix-up pass
raise `IndexError`. -/
theorem argFixAll_mem_empty : ∀ (args : List String), "" ∈ args →
    argFixAll args = .error .indexError := by
  intro args hmem
  induction args with
  | nil => cases hmem
  | cons a rest ih =>
    by_cases ha : a = ""
    · subst ha
      rfl
    · have hmem2 : "" ∈ rest := by
        cases hmem with
        | head => exact absurd rfl ha
        | tail _ h => exact h
      obtain ⟨f, hf⟩ := arg_fix_ok_of_ne_empty a ha
      unfold argFixAll
      rw [hf, ih hmem2]

/-- C10: binding is not total — when the token list contains the empty
string, the per-token quote fix-up (`arg[0]`) raises an `IndexError`
before any descriptor is bound, and that exception is not the user-facing
`BadArgument` bind error. -/
theorem empty_token_raises_index_error (cmd : MolterCommand) (ctx : Val)
    (args : List String) (hp : 0 < cmd.params.length) (hmem : "" ∈ args) :
    call_callback cmd ctx args = .error .indexError
    ∧ isBindError .indexError = false := by
  constructor
  · unfold call_callback
    rw [if_neg (by omega)]
    rw [argFixAll_mem_empty args hmem]
  · rfl

/-- A plain required string descriptor and a command over it, exercising
the empty-token failure. -/
def pStrC10 : CommandParameter := ⟨"w", none, "str", [], [some strConv], false, false, false, false⟩

/-- The command for the C10 witness. -/
def cmdC10 : MolterCommand := ⟨"c10", [pStrC10], true⟩

/-- C10 witness: the failure at a concrete input. -/
theorem empty_token_raises_index_error_witness :
    call_callback cmdC10 .vCtx ["a", ""] = .error .indexError
    ∧ isBindError .indexError = false :=
  empty_token_raises_index_error cmdC10 .vCtx ["a", ""] (by decide)
    (by simp)

/-- Whether a descriptor build succeeded. -/
def exceptOk : Except String CommandParameter → Bool
  | .ok _ => true
  | .error _ => false

/-- `buildParam` never sets the `variable` flag itself (only the
`param.kind` match in `_get_params` does). -/
theorem buildParam_variadic (p : PyParam) (cp : CommandParameter)
    (h : buildParam p = .ok cp) : cp.variadic = false := by
  unfold buildParam at h
  split at h
  · cases h
  · split at h
    · cases h
      rfl
    · cases h
      rfl

/-- C8: a variadic parameter that ends up optional — by carrying a
declared default or by an `Optional[...]` annotation whose `NoneType`
alternative installs a `None` default — is rejected by `_get_params` with
a `SignatureError` (`ValueError` in the source) at build time; and no
descriptor list that the builder accepts contains an optional variadic
descriptor, so the error can never arise at bind time. -/
theorem variadic_default_rejected_at_build :
    (∀ (pre : List PyParam) (name : String) (d : Val) (a : Anno),
      (∀ r ∈ pre, r.kind = PKind.positionalOrKeyword ∧ exceptOk (buildParam r) = true) →
      _get_params (pre ++ [⟨name, .varPositional, some d, .plainT a⟩]) =
        .error "Variable arguments cannot have default values or be Optional.")
    ∧ (∀ (name : String) (a : Anno),
      _get_params [⟨name, .varPositional, none, .unionT [some a, none]⟩] =
        .error "Variable arguments cannot have default values or be Optional.")
    ∧ (∀ (ps : List PyParam) (l : List CommandParameter),
      _get_params ps = .ok l → ∀ q ∈ l, q.variadic = true → q.optional = false) := by
  refine ⟨?_, ?_, ?_⟩
  · intro pre
    induction pre with
    | nil =>
      intro name d a hpre
      rfl
    | cons r pre ih =>
      intro name d a hpre
      obtain ⟨hk, hok⟩ := hpre r (List.mem_cons_self r pre)
      obtain ⟨cp, hcp⟩ : ∃ cp, buildParam r = .ok cp := by
        cases hbp : buildParam r with
        | ok cp => exact ⟨cp, rfl⟩
        | error e =>
          rw [hbp] at hok
          simp [exceptOk] at hok
      have ih2 := ih name d a (fun q hq => hpre q (List.mem_cons_of_mem r hq))
      simp only [List.cons_append, _get_params, hcp, hk, List.append_eq, ih2]
  · intro name a
    rfl
  · intro ps
    induction ps with
    | nil =>
      intro l h q hq _
      cases h
      cases hq
    | cons p rest ih =>
      intro l h q hq hv
      simp only [_get_params] at h
      split at h
      · cases h
      · next cp heq =>
        split at h
        · cases h
          have hq2 := List.mem_singleton.mp hq
          subst hq2
          have hvv : cp.variadic = true := hv
          rw [buildParam_variadic p cp heq] at hvv
          cases hvv
        · split at h
          · cases h
          · next hopt =>
            cases h
            have hq2 := List.mem_singleton.mp hq
            subst hq2
            show cp.optional = false
            simpa using hopt
        · split at h
          · cases h
          · next others heq2 =>
            cases h
            cases hq with
            | head =>
              rw [buildParam_variadic p _ heq] at hv
              cases hv
            | tail _ htail => exact ih others heq2 q htail hv

/-- A positional parameter and the descriptor `_get_params` builds for
it, for the C8 witness. -/
def pxC8 : PyParam := ⟨"x", .positionalOrKeyword, none, .plainT .boolA⟩

/-- The descriptor built for `pxC8`. -/
def cpC8 : CommandParameter :=
  ⟨"x", none, "bool", [], [_get_converter .boolA "x"], false, false, false, false⟩

/-- C8 witness: the build-time rejection at concrete inputs, and the
bind-time impossibility instantiated on a concretely built list. -/
theorem variadic_default_rejected_at_build_witness :
    _get_params [⟨"args0", .varPositional, some (.vInt 0), .plainT .boolA⟩] =
      .error "Variable arguments cannot have default values or be Optional."
    ∧ _get_params [⟨"args1", .varPositional, none, .unionT [some .boolA, none]⟩] =
      .error "Variable arguments cannot have default values or be Optional."
    ∧ (cpC8.variadic = true → cpC8.optional = false) :=
  ⟨variadic_default_rejected_at_build.1 [] "args0" (.vInt 0) .boolA (by simp),
   variadic_default_rejected_at_build.2.1 "args1" .boolA,
   variadic_default_rejected_at_build.2.2 [pxC8] [cpC8] rfl cpC8 (by simp)⟩

/-- A Greedy-over-int descriptor with the *falsy* default `None`
(`g: Greedy[int] = None`). -/
def gIntNoneDef : CommandParameter :=
  ⟨"g", some .vNone, "int", [], [some intConv], true, false, false, false⟩

/-- C4 counterexample: this Greedy descriptor has a default (`None`), yet
zero-token accumulation raises instead of falling back to it, because the
source checks `if param.default:` — Python truthiness — not
whether a default exists. -/
theorem greedy_falsy_default_not_used :
    _greedy_convert gIntNoneDef .vCtx ⟨["z"], 1⟩ =
      .error (.badArgument "Failed to find any arguments for int.")
    ∧ gIntNoneDef.default.isSome = true := by
  constructor
  · have hG : greedyLoop gIntNoneDef .vCtx (ArgsIterator.back ⟨["z"], 1⟩ 1) [] =
        .ok ([], true, ⟨["z"], 1⟩) := by
      have h1 := greedyLoop_stop_default gIntNoneDef .vCtx ⟨["z"], 0⟩ [] "z" .vNone
        (by decide) rfl rfl
      simpa [ArgsIterator.back] using h1
    unfold _greedy_convert
    simp only [hG]
    rfl
  · rfl

/-- C4 (amended): when greedy accumulation gathers zero tokens,
`_greedy_convert` falls back to the default only when the default is
*truthy*; a missing default and a falsy default (such as `None`, `[]`,
`0` or `False`) alike raise
`"Failed to find any arguments for <type>."`. -/
theorem greedy_zero_accumulated_truthy_default (param : CommandParameter) (ctx : Val)
    (it : ArgsIterator) (b : Bool) (it1 : ArgsIterator)
    (h : greedyLoop param ctx (it.back 1) [] = .ok ([], b, it1)) :
    _greedy_convert param ctx it =
      if defaultTruthy param.default then .ok (param.default.getD Val.vNone, b, it1)
      else .error (.badArgument
        ("Failed to find any arguments for " ++ param.typeRepr ++ ".")) := by
  unfold _greedy_convert
  simp only [h]
  rfl

/-- A Greedy-over-int descriptor with a truthy default (`[7]`). -/
def gIntListDef : CommandParameter :=
  ⟨"g", some (.vList [.vInt 7]), "int", [], [some intConv], true, false, false, false⟩

/-- C4 witness: the truthy-default fallback at a concrete input. -/
theorem greedy_zero_accumulated_truthy_default_witness :
    greedyLoop gIntListDef .vCtx (ArgsIterator.back ⟨["z"], 1⟩ 1) [] = .ok ([], true, ⟨["z"], 1⟩)
    ∧ _greedy_convert gIntListDef .vCtx ⟨["z"], 1⟩ = .ok (.vList [.vInt 7], true, ⟨["z"], 1⟩) := by
  have hG : greedyLoop gIntListDef .vCtx (ArgsIterator.back ⟨["z"], 1⟩ 1) [] =
      .ok ([], true, ⟨["z"], 1⟩) := by
    have h1 := greedyLoop_stop_default gIntListDef .vCtx ⟨["z"], 0⟩ [] "z"
      (.vList [.vInt 7]) (by decide) rfl rfl
    simpa [ArgsIterator.back] using h1
  refine ⟨hG, ?_⟩
  have h2 := greedy_zero_accumulated_truthy_default gIntListDef .vCtx ⟨["z"], 1⟩ true
    ⟨["z"], 1⟩ hG
  rw [h2]
  rfl

/-- When every converter in the chain fails and the parameter is
optional, the converter loop of `_convert` ends with nothing converted
(the MISSING sentinel). -/
theorem tryConverters_all_fail (param : CommandParameter) (ctx : Val) (arg : String)
    (hopt : param.optional = true) :
    ∀ (convs : List (Option Conv)),
      (∀ c ∈ convs, isOkB (applyConv c ctx arg) = false) →
      tryConverters param ctx convs arg = .ok none := by
  intro convs
  induction convs with
  | nil => intro _; rfl
  | cons c rest ih =>
    intro hall
    have hc0 := hall c (List.mem_cons_self c rest)
    unfold tryConverters
    cases hc : applyConv c ctx arg with
    | ok v =>
      rw [hc] at hc0
      simp [isOkB] at hc0
    | error e =>
      simp only [hc, hopt, Bool.not_true, Bool.and_false, Bool.false_eq_true, if_false]
      exact ih (fun c2 hm => hall c2 (List.mem_cons_of_mem c hm))

/-- C5: a Plain or Union descriptor with a default, all of whose
converters reject the current token, is bound to its default without
advancing the cursor, and the inner loop goes on to offer the *same*
token and iterator state to the next descriptor; the inner loop breaks
(letting the outer loop advance past the token) only when a converter
truly succeeded. -/
theorem plain_union_default_fallback_no_advance (ctx : Val) (p : CommandParameter)
    (rest : List CommandParameter) (arg : String) (it : ArgsIterator)
    (na : List Val) (kw : List (String × Val)) (d : Val)
    (hcr : p.consume_rest = false) (hvr : p.variadic = false) (hgr : p.greedy = false)
    (hd : p.default = some d) :
    ((∀ c ∈ p.converters, isOkB (applyConv c ctx arg) = false) →
      innerLoop ctx arg (p :: rest) it na kw = innerLoop ctx arg rest it (na ++ [d]) kw)
    ∧ (∀ v, tryConverters p ctx p.converters arg = .ok (some v) →
      innerLoop ctx arg (p :: rest) it na kw = .ok (rest, it, na ++ [v], kw)) := by
  have hopt : p.optional = true := by simp [CommandParameter.optional, hd]
  have hfix : consumeRestFix p arg it = (arg, it) := by
    simp [consumeRestFix, hcr]
  constructor
  · intro hall
    have htry := tryConverters_all_fail p ctx arg hopt p.converters hall
    have hconv : _convert p ctx arg = .ok (d, true) := by
      unfold _convert
      simp only [htry]
      simp [hopt, hd]
    simp only [innerLoop]
    simp [hvr, hgr, hcr, hfix, hconv]
  · intro v htry
    have hconv : _convert p ctx arg = .ok (v, false) := by
      unfold _convert
      simp only [htry]
    simp only [innerLoop]
    simp [hvr, hgr, hcr, hfix, hconv]

/-- An optional int-typed middle descriptor with a string default. -/
def pIntOptC5 : CommandParameter :=
  ⟨"mid", some (.vStr "dflt"), "int", [], [some intConv], false, false, false, false⟩

/-- A required trailing string descriptor. -/
def pTailC5 : CommandParameter :=
  ⟨"tail", none, "str", [], [some strConv], false, false, false, false⟩

/-- C5 witness: the fallback on a non-numeric token (the next descriptor
sees the same token and iterator) and the break on a numeric one. -/
theorem plain_union_default_fallback_no_advance_witness :
    innerLoop .vCtx "zz" [pIntOptC5, pTailC5] ⟨["zz"], 1⟩ [] [] =
      innerLoop .vCtx "zz" [pTailC5] ⟨["zz"], 1⟩ [.vStr "dflt"] []
    ∧ innerLoop .vCtx "7" [pIntOptC5, pTailC5] ⟨["7"], 1⟩ [] [] =
      .ok ([pTailC5], ⟨["7"], 1⟩, [.vInt 7], []) := by
  constructor
  · exact (plain_union_default_fallback_no_advance .vCtx pIntOptC5 [pTailC5] "zz"
      ⟨["zz"], 1⟩ [] [] (.vStr "dflt") rfl rfl rfl rfl).1 (by decide)
  · exact (plain_union_default_fallback_no_advance .vCtx pIntOptC5 [pTailC5] "7"
      ⟨["7"], 1⟩ [] [] (.vStr "dflt") rfl rfl rfl rfl).2 (.vInt 7) rfl

/-- An optional Plain string descriptor with default `"d"`. -/
def pOptC6 : CommandParameter :=
  ⟨"p", some (.vStr "d"), "str", [], [some strConv], false, false, false, false⟩

/-- A required Plain string descriptor named `need`. -/
def pReqC6 : CommandParameter :=
  ⟨"need", none, "str", [], [some strConv], false, false, false, false⟩

/-- The one-optional-parameter command of C6. -/
def cmdC6 : MolterCommand := ⟨"c6", [pOptC6], true⟩

/-- C6: after the tokens run out, the fallback over the remaining
descriptors binds each optional (non-`consume_rest`) descriptor to its
default; a non-optional descriptor — the first one encountered — fails
the binding with `"Missing argument for <name>."`; and a command with a
single optional Plain parameter invoked on zero tokens binds the default
and succeeds. -/
theorem exhausted_tokens_fallback :
    (∀ (ps : List CommandParameter) (na : List Val) (kw : List (String × Val)),
      (∀ p ∈ ps, p.optional = true ∧ p.consume_rest = false) →
      fallbackRemaining ps na kw =
        .ok (na ++ ps.map (fun p => p.default.getD Val.vNone), kw))
    ∧ (∀ (ps : List CommandParameter) (last : CommandParameter) (na : List Val)
        (kw : List (String × Val)),
      (∀ p ∈ ps, p.optional = true ∧ p.consume_rest = false) →
      last.optional = true → last.consume_rest = true →
      fallbackRemaining (ps ++ [last]) na kw =
        .ok (na ++ ps.map (fun p => p.default.getD Val.vNone),
          kw ++ [(last.name, last.default.getD Val.vNone)]))
    ∧ (∀ (pre : List CommandParameter) (q : CommandParameter)
        (post : List CommandParameter) (na : List Val) (kw : List (String × Val)),
      (∀ p ∈ pre, p.optional = true ∧ p.consume_rest = false) →
      q.optional = false →
      fallbackRemaining (pre ++ q :: post) na kw =
        .error (.badArgument ("Missing argument for " ++ q.name ++ ".")))
    ∧ call_callback cmdC6 .vCtx [] = .ok ([.vStr "d"], []) := by
  refine ⟨?_, ?_, ?_, ?_⟩
  · intro ps
    induction ps with
    | nil =>
      intro na kw _
      simp [fallbackRemaining]
    | cons p rest ih =>
      intro na kw hall
      obtain ⟨ho, hc⟩ := hall p (List.mem_cons_self p rest)
      unfold fallbackRemaining
      simp only [ho, hc, Bool.not_true, Bool.not_false, Bool.false_eq_true, if_false,
        if_true]
      rw [ih (na ++ [p.default.getD Val.vNone]) kw
        (fun q hq => hall q (List.mem_cons_of_mem p hq))]
      simp
  · intro ps
    induction ps with
    | nil =>
      intro last na kw _ hlo hlc
      simp only [List.nil_append]
      unfold fallbackRemaining
      simp [hlo, hlc]
    | cons p rest ih =>
      intro last na kw hall hlo hlc
      obtain ⟨ho, hc⟩ := hall p (List.mem_cons_self p rest)
      simp only [List.cons_append]
      unfold fallbackRemaining
      simp only [ho, hc, Bool.not_true, Bool.not_false, Bool.false_eq_true, if_false,
        if_true]
      rw [ih last (na ++ [p.default.getD Val.vNone]) kw
        (fun q hq => hall q (List.mem_cons_of_mem p hq)) hlo hlc]
      simp
  · intro pre
    induction pre with
    | nil =>
      intro q post na kw _ hq
      unfold fallbackRemaining
      simp only [List.nil_append]
      simp [hq]
    | cons p pre ih =>
      intro q post na kw hall hq
      obtain ⟨ho, hc⟩ := hall p (List.mem_cons_self p pre)
      simp only [List.cons_append]
      unfold fallbackRemaining
      simp only [ho, hc, Bool.not_true, Bool.not_false, Bool.false_eq_true, if_false,
        if_true]
      exact ih q post (na ++ [p.default.getD Val.vNone]) kw
        (fun r hr => hall r (List.mem_cons_of_mem p hr)) hq
  · unfold call_callback
    rw [if_neg (by decide)]
    have houter : outerLoop .vCtx cmdC6.params ⟨[], 0⟩ [] [] =
        .ok (cmdC6.params, ⟨[], 0⟩, [], []) :=
      outerLoop_done .vCtx cmdC6.params ⟨[], 0⟩ [] [] (by decide)
    simp only [argFixAll, houter]
    rfl

/-- C6 witness: the fallback at concrete inputs. -/
theorem exhausted_tokens_fallback_witness :
    fallbackRemaining [pOptC6] [] [] = .ok ([.vStr "d"], [])
    ∧ fallbackRemaining [pOptC6, pReqC6] [] [] =
        .error (.badArgument "Missing argument for need.") := by
  constructor
  · have h1 := exhausted_tokens_fallback.1 [pOptC6] [] [] (by decide)
    simpa [pOptC6] using h1
  · have h2 := exhausted_tokens_fallback.2.2.1 [pOptC6] pReqC6 [] [] [] (by decide) rfl
    simpa [pReqC6] using h2

/-- One inner-loop step over a greedy head descriptor, reduced to the
result of `_greedy_convert`: `continue` with the same token when the
default is truthy, else `break`. -/
theorem innerLoop_greedy_step (ctx : Val) (arg : String) (param : CommandParameter)
    (rest : List CommandParameter) (it : ArgsIterator) (na : List Val)
    (kw : List (String × Val)) (v : Val) (brokeOff : Bool) (it1 : ArgsIterator)
    (hcr : param.consume_rest = false) (hvr : param.variadic = false)
    (hgr : param.greedy = true)
    (hgc : _greedy_convert param ctx it = .ok (v, brokeOff, it1)) :
    innerLoop ctx arg (param :: rest) it na kw =
      if defaultTruthy param.default then
        innerLoop ctx arg rest (if brokeOff then it1.back 1 else it1) (na ++ [v]) kw
      else .ok (rest, (if brokeOff then it1.back 1 else it1), na ++ [v], kw) := by
  have hfix : consumeRestFix param arg it = (arg, it) := by
    simp [consumeRestFix, hcr]
  simp only [innerLoop]
  simp [hvr, hgr, hfix, hgc]

/-- `call_callback` reduced past the outer loop when the loop returns
normally. -/
theorem call_callback_eval (cmd : MolterCommand) (ctx : Val)
    (ctxArgs fixed : List String) (rem : List CommandParameter) (it : ArgsIterator)
    (na : List Val) (kw : List (String × Val))
    (hlen : ¬cmd.params.length = 0)
    (hfix : argFixAll ctxArgs = .ok fixed)
    (hout : outerLoop ctx cmd.params ⟨fixed, 0⟩ [] [] = .ok (rem, it, na, kw)) :
    call_callback cmd ctx ctxArgs =
      match rem with
      | _ :: _ => fallbackRemaining rem na kw
      | [] =>
        if !cmd.ignore_extra && !it.finished then
          .error (.badArgument ("Too many arguments passed to " ++ cmd.name ++ "."))
        else .ok (na, kw) := by
  unfold call_callback
  rw [if_neg hlen]
  simp only [hfix, hout]
  cases rem with
  | nil => rfl
  | cons h t => rfl

/-- `call_callback` reduced when the outer loop fails. -/
theorem call_callback_eval_err (cmd : MolterCommand) (ctx : Val)
    (ctxArgs fixed : List String) (e : PErr)
    (hlen : ¬cmd.params.length = 0)
    (hfix : argFixAll ctxArgs = .ok fixed)
    (hout : outerLoop ctx cmd.params ⟨fixed, 0⟩ [] [] = .error e) :
    call_callback cmd ctx ctxArgs = .error e := by
  unfold call_callback
  rw [if_neg hlen]
  simp only [hfix, hout]

/-- A required Plain string descriptor, single converter. -/
def pStrReqC1 : CommandParameter :=
  ⟨"arg1", none, "str", [], [some strConv], false, false, false, false⟩

/-- The one-required-parameter command with `ignore_extra=False`. -/
def cmdC1 : MolterCommand := ⟨"cmd", [pStrReqC1], false⟩

/-- C1: the claim (and the field's own docstring) says extra unconsumed
tokens with `ignore_extra=False` raise
`"Too many arguments passed to <command>"`.  They never do: the outer
`for` loop consumes every leftover token without binding it, so
`args.finished` is always true when the guard is evaluated — binding
succeeds and `"b"` is silently dropped, with `ignore_extra` making no
difference.  The third conjunct is the general fact that makes the guard
dead code. -/
theorem extra_args_silently_discarded :
    call_callback cmdC1 .vCtx ["a", "b"] = .ok ([.vStr "a"], [])
    ∧ call_callback ⟨"cmd", [pStrReqC1], true⟩ .vCtx ["a", "b"] = .ok ([.vStr "a"], [])
    ∧ (∀ (ctx : Val) (rem : List CommandParameter) (it : ArgsIterator) (na : List Val)
        (kw : List (String × Val)) res,
        outerLoop ctx rem it na kw = .ok res → res.2.1.finished = true) := by
  have s1 : outerLoop .vCtx cmdC1.params ⟨["a", "b"], 0⟩ [] [] =
      outerLoop .vCtx [] ⟨["a", "b"], 1⟩ [.vStr "a"] [] :=
    outerLoop_step .vCtx cmdC1.params ⟨["a", "b"], 0⟩ [] [] "a" [] ⟨["a", "b"], 1⟩
      [.vStr "a"] [] (by decide) rfl rfl
  have s2 : outerLoop .vCtx [] ⟨["a", "b"], 1⟩ [.vStr "a"] [] =
      outerLoop .vCtx [] ⟨["a", "b"], 2⟩ [.vStr "a"] [] :=
    outerLoop_step .vCtx [] ⟨["a", "b"], 1⟩ [.vStr "a"] [] "b" [] ⟨["a", "b"], 2⟩
      [.vStr "a"] [] (by decide) rfl rfl
  have s3 : outerLoop .vCtx [] ⟨["a", "b"], 2⟩ [.vStr "a"] [] =
      .ok ([], ⟨["a", "b"], 2⟩, [.vStr "a"], []) :=
    outerLoop_done .vCtx [] ⟨["a", "b"], 2⟩ [.vStr "a"] [] (by decide)
  have houter : outerLoop .vCtx cmdC1.params ⟨["a", "b"], 0⟩ [] [] =
      .ok ([], ⟨["a", "b"], 2⟩, [.vStr "a"], []) := (s1.trans s2).trans s3
  refine ⟨?_, ?_, ?_⟩
  · rw [call_callback_eval cmdC1 .vCtx ["a", "b"] ["a", "b"] [] ⟨["a", "b"], 2⟩
      [.vStr "a"] [] (by decide) rfl houter]
    rfl
  · rw [call_callback_eval ⟨"cmd", [pStrReqC1], true⟩ .vCtx ["a", "b"] ["a", "b"] []
      ⟨["a", "b"], 2⟩ [.vStr "a"] [] (by decide) rfl houter]
    rfl
  · exact fun ctx rem it na kw res h => outerLoop_finished ctx rem it na kw res h

/-- C1 witness: the general dead-code conjunct instantiated — a one-token
run with no parameters ends with a finished iterator. -/
theorem extra_args_silently_discarded_witness :
    outerLoop .vCtx [] ⟨["q"], 0⟩ [] [] = .ok ([], ⟨["q"], 1⟩, [], [])
    ∧ ArgsIterator.finished ⟨["q"], 1⟩ = true := by
  have hstep : outerLoop .vCtx [] ⟨["q"], 0⟩ [] [] = outerLoop .vCtx [] ⟨["q"], 1⟩ [] [] :=
    outerLoop_step .vCtx [] ⟨["q"], 0⟩ [] [] "q" [] ⟨["q"], 1⟩ [] [] (by decide) rfl rfl
  have hdone : outerLoop .vCtx [] ⟨["q"], 1⟩ [] [] = .ok ([], ⟨["q"], 1⟩, [], []) :=
    outerLoop_done .vCtx [] ⟨["q"], 1⟩ [] [] (by decide)
  have hG := hstep.trans hdone
  exact ⟨hG, extra_args_silently_discarded.2.2 .vCtx [] ⟨["q"], 0⟩ [] []
    ([], ⟨["q"], 1⟩, [], []) hG⟩

/-- A Greedy-over-int descriptor with the truthy default `[99]`. -/
def gIntDefC2 : CommandParameter :=
  ⟨"nums", some (.vList [.vInt 99]), "int", [], [some intConv], true, false, false, false⟩

/-- The required string descriptor following the greedy one. -/
def pStrC2 : CommandParameter :=
  ⟨"word", none, "str", [], [some strConv], false, false, false, false⟩

/-- The greedy-with-default command of C2. -/
def cmdC2 : MolterCommand := ⟨"c2", [gIntDefC2, pStrC2], true⟩

/-- C2: the claim (with the spec) says that after a defaulted Greedy
descriptor accumulates `[3, 4]` and pushes the failing token `"x"` back,
the *same re-pushed token* is offered to the next descriptor.  The code
instead re-converts the stale outer-loop variable — the first token `"3"`
the greedy had already consumed — binding it a second time, and `"x"` is
consumed unbound by the next outer iteration. -/
theorem greedy_default_rebinds_stale_token :
    call_callback cmdC2 .vCtx ["3", "4", "x"] =
      .ok ([.vList [.vInt 3, .vInt 4], .vStr "3"], []) := by
  have g1 : greedyLoop gIntDefC2 .vCtx ⟨["3", "4", "x"], 0⟩ [] =
      greedyLoop gIntDefC2 .vCtx ⟨["3", "4", "x"], 1⟩ [.vInt 3] :=
    greedyLoop_step gIntDefC2 .vCtx ⟨["3", "4", "x"], 0⟩ [] "3" (.vInt 3)
      (by decide) rfl rfl
  have g2 : greedyLoop gIntDefC2 .vCtx ⟨["3", "4", "x"], 1⟩ [.vInt 3] =
      greedyLoop gIntDefC2 .vCtx ⟨["3", "4", "x"], 2⟩ [.vInt 3, .vInt 4] :=
    greedyLoop_step gIntDefC2 .vCtx ⟨["3", "4", "x"], 1⟩ [.vInt 3] "4" (.vInt 4)
      (by decide) rfl rfl
  have g3 : greedyLoop gIntDefC2 .vCtx ⟨["3", "4", "x"], 2⟩ [.vInt 3, .vInt 4] =
      .ok ([.vInt 3, .vInt 4], true, ⟨["3", "4", "x"], 3⟩) :=
    greedyLoop_stop_default gIntDefC2 .vCtx ⟨["3", "4", "x"], 2⟩ [.vInt 3, .vInt 4] "x"
      (.vList [.vInt 99]) (by decide) rfl rfl
  have hGL : greedyLoop gIntDefC2 .vCtx (ArgsIterator.back ⟨["3", "4", "x"], 1⟩ 1) [] =
      .ok ([.vInt 3, .vInt 4], true, ⟨["3", "4", "x"], 3⟩) := (g1.trans g2).trans g3
  have hgc : _greedy_convert gIntDefC2 .vCtx ⟨["3", "4", "x"], 1⟩ =
      .ok (.vList [.vInt 3, .vInt 4], true, ⟨["3", "4", "x"], 3⟩) := by
    unfold _greedy_convert
    simp only [hGL]
    rfl
  have hin1 : innerLoop .vCtx "3" [gIntDefC2, pStrC2] ⟨["3", "4", "x"], 1⟩ [] [] =
      .ok ([], ⟨["3", "4", "x"], 2⟩, [.vList [.vInt 3, .vInt 4], .vStr "3"], []) := by
    rw [innerLoop_greedy_step .vCtx "3" gIntDefC2 [pStrC2] ⟨["3", "4", "x"], 1⟩ [] []
      (.vList [.vInt 3, .vInt 4]) true ⟨["3", "4", "x"], 3⟩ rfl rfl rfl hgc]
    rfl
  have o1 : outerLoop .vCtx cmdC2.params ⟨["3", "4", "x"], 0⟩ [] [] =
      outerLoop .vCtx [] ⟨["3", "4", "x"], 2⟩ [.vList [.vInt 3, .vInt 4], .vStr "3"] [] :=
    outerLoop_step .vCtx cmdC2.params ⟨["3", "4", "x"], 0⟩ [] [] "3" []
      ⟨["3", "4", "x"], 2⟩ [.vList [.vInt 3, .vInt 4], .vStr "3"] [] (by decide) rfl hin1
  have o2 : outerLoop .vCtx [] ⟨["3", "4", "x"], 2⟩ [.vList [.vInt 3, .vInt 4], .vStr "3"] [] =
      outerLoop .vCtx [] ⟨["3", "4", "x"], 3⟩ [.vList [.vInt 3, .vInt 4], .vStr "3"] [] :=
    outerLoop_step .vCtx [] ⟨["3", "4", "x"], 2⟩ [.vList [.vInt 3, .vInt 4], .vStr "3"] []
      "x" [] ⟨["3", "4", "x"], 3⟩ [.vList [.vInt 3, .vInt 4], .vStr "3"] []
      (by decide) rfl rfl
  have o3 : outerLoop .vCtx [] ⟨["3", "4", "x"], 3⟩ [.vList [.vInt 3, .vInt 4], .vStr "3"] [] =
      .ok ([], ⟨["3", "4", "x"], 3⟩, [.vList [.vInt 3, .vInt 4], .vStr "3"], []) :=
    outerLoop_done .vCtx [] ⟨["3", "4", "x"], 3⟩ [.vList [.vInt 3, .vInt 4], .vStr "3"] []
      (by decide)
  rw [call_callback_eval cmdC2 .vCtx ["3", "4", "x"] ["3", "4", "x"] []
    ⟨["3", "4", "x"], 3⟩ [.vList [.vInt 3, .vInt 4], .vStr "3"] [] (by decide) rfl
    ((o1.trans o2).trans o3)]
  rfl

/-- A Greedy-over-int descriptor with no default. -/
def gIntNoDef : CommandParameter :=
  ⟨"nums", none, "int", [], [some intConv], true, false, false, false⟩

/-- C7: a no-default Greedy-over-int descriptor on tokens
`["3", "4", "x"]` accumulates `[3, 4]`, pushes `"x"` back, and — because
there is no default, the inner loop breaks — the next outer iteration
presents exactly `"x"` to the following descriptor: the whole binding
reduces to what `_convert` of that descriptor does on `"x"`. -/
theorem greedy_pushback_presents_token_to_next (p2 : CommandParameter)
    (hcr : p2.consume_rest = false) (hvr : p2.variadic = false)
    (hgr : p2.greedy = false) :
    call_callback ⟨"c7", [gIntNoDef, p2], true⟩ .vCtx ["3", "4", "x"] =
      match _convert p2 .vCtx "x" with
      | .error e => .error e
      | .ok (v, _) => .ok ([.vList [.vInt 3, .vInt 4], v], []) := by
  have g1 : greedyLoop gIntNoDef .vCtx ⟨["3", "4", "x"], 0⟩ [] =
      greedyLoop gIntNoDef .vCtx ⟨["3", "4", "x"], 1⟩ [.vInt 3] :=
    greedyLoop_step gIntNoDef .vCtx ⟨["3", "4", "x"], 0⟩ [] "3" (.vInt 3)
      (by decide) rfl rfl
  have g2 : greedyLoop gIntNoDef .vCtx ⟨["3", "4", "x"], 1⟩ [.vInt 3] =
      greedyLoop gIntNoDef .vCtx ⟨["3", "4", "x"], 2⟩ [.vInt 3, .vInt 4] :=
    greedyLoop_step gIntNoDef .vCtx ⟨["3", "4", "x"], 1⟩ [.vInt 3] "4" (.vInt 4)
      (by decide) rfl rfl
  have g3 : greedyLoop gIntNoDef .vCtx ⟨["3", "4", "x"], 2⟩ [.vInt 3, .vInt 4] =
      .ok ([.vInt 3, .vInt 4], true, ⟨["3", "4", "x"], 3⟩) :=
    greedyLoop_stop_bad gIntNoDef .vCtx ⟨["3", "4", "x"], 2⟩ [.vInt 3, .vInt 4] "x"
      "invalid literal for int() with base 10: x" (by decide) rfl rfl
  have hGL : greedyLoop gIntNoDef .vCtx (ArgsIterator.back ⟨["3", "4", "x"], 1⟩ 1) [] =
      .ok ([.vInt 3, .vInt 4], true, ⟨["3", "4", "x"], 3⟩) := (g1.trans g2).trans g3
  have hgc : _greedy_convert gIntNoDef .vCtx ⟨["3", "4", "x"], 1⟩ =
      .ok (.vList [.vInt 3, .vInt 4], true, ⟨["3", "4", "x"], 3⟩) := by
    unfold _greedy_convert
    simp only [hGL]
    rfl
  have hin1 : innerLoop .vCtx "3" [gIntNoDef, p2] ⟨["3", "4", "x"], 1⟩ [] [] =
      .ok ([p2], ⟨["3", "4", "x"], 2⟩, [.vList [.vInt 3, .vInt 4]], []) := by
    rw [innerLoop_greedy_step .vCtx "3" gIntNoDef [p2] ⟨["3", "4", "x"], 1⟩ [] []
      (.vList [.vInt 3, .vInt 4]) true ⟨["3", "4", "x"], 3⟩ rfl rfl rfl hgc]
    rfl
  have o1 : outerLoop .vCtx [gIntNoDef, p2] ⟨["3", "4", "x"], 0⟩ [] [] =
      outerLoop .vCtx [p2] ⟨["3", "4", "x"], 2⟩ [.vList [.vInt 3, .vInt 4]] [] :=
    outerLoop_step .vCtx [gIntNoDef, p2] ⟨["3", "4", "x"], 0⟩ [] [] "3" [p2]
      ⟨["3", "4", "x"], 2⟩ [.vList [.vInt 3, .vInt 4]] [] (by decide) rfl hin1
  have hfix2 : consumeRestFix p2 "x" ⟨["3", "4", "x"], 3⟩ = ("x", ⟨["3", "4", "x"], 3⟩) := by
    simp [consumeRestFix, hcr]
  cases hc : _convert p2 .vCtx "x" with
  | error e =>
    have hin2 : innerLoop .vCtx "x" [p2] ⟨["3", "4", "x"], 3⟩ [.vList [.vInt 3, .vInt 4]] [] =
        .error e := by
      simp only [innerLoop]
      simp [hvr, hgr, hfix2, hc]
    have o2 := outerLoop_step_err .vCtx [p2] ⟨["3", "4", "x"], 2⟩
      [.vList [.vInt 3, .vInt 4]] [] "x" e (by decide) rfl hin2
    rw [call_callback_eval_err ⟨"c7", [gIntNoDef, p2], true⟩ .vCtx ["3", "4", "x"]
      ["3", "4", "x"] e (by simp) rfl (o1.trans o2)]
  | ok r =>
    obtain ⟨v, ud⟩ := r
    have hin2 : innerLoop .vCtx "x" [p2] ⟨["3", "4", "x"], 3⟩ [.vList [.vInt 3, .vInt 4]] [] =
        .ok ([], ⟨["3", "4", "x"], 3⟩, [.vList [.vInt 3, .vInt 4], v], []) := by
      simp only [innerLoop]
      simp only [hvr, hgr, hfix2, hc, hcr, Bool.false_eq_true, if_false, Bool.not_false,
        if_true]
      cases ud <;> simp [innerLoop]
    have o2 := outerLoop_step .vCtx [p2] ⟨["3", "4", "x"], 2⟩ [.vList [.vInt 3, .vInt 4]] []
      "x" [] ⟨["3", "4", "x"], 3⟩ [.vList [.vInt 3, .vInt 4], v] [] (by decide) rfl hin2
    have o3 := outerLoop_done .vCtx [] ⟨["3", "4", "x"], 3⟩ [.vList [.vInt 3, .vInt 4], v] []
      (by decide)
    rw [call_callback_eval ⟨"c7", [gIntNoDef, p2], true⟩ .vCtx ["3", "4", "x"]
      ["3", "4", "x"] [] ⟨["3", "4", "x"], 3⟩ [.vList [.vInt 3, .vInt 4], v] []
      (by simp) rfl ((o1.trans o2).trans o3)]
    rfl

/-- The plain string descriptor following the greedy one in the C7
witness. -/
def pWordC7 : CommandParameter :=
  ⟨"word", none, "str", [], [some strConv], false, false, false, false⟩

/-- C7 witness: with a concrete string descriptor after the greedy one,
`"x"` is bound to it. -/
theorem greedy_pushback_presents_token_to_next_witness :
    call_callback ⟨"c7", [gIntNoDef, pWordC7], true⟩ .vCtx ["3", "4", "x"] =
      .ok ([.vList [.vInt 3, .vInt 4], .vStr "x"], []) := by
  rw [greedy_pushback_presents_token_to_next pWordC7 rfl rfl rfl]
  rfl

end Molter
